import Mathlib

/-!
Shallow embedding of the trsync reconciliation engine
(src/operation.rs, src/local.rs, src/error.rs) and proofs about it.

Conventions:
- Rust `String` relative paths become Lean `String`.
- `ContentId` / `RevisionId` are `i32` on the Rust side; the program never
  performs arithmetic on them, so they are embedded as `Int`.
- Fallible Rust functions returning `Result<T, Error>` become
  `Except HError T`.
- The collaborator modules that are not part of the given sources
  (`client.rs`, `database.rs`, `util.rs`) are modelled from the spec where a
  claim needs them; each such definition carries a `Modelled from the spec:`
  doc comment.
-/

deriving instance DecidableEq for Except

namespace Trsync

/-- The operational message type of `src/operation.rs` (enum
`OperationalMessage`). -/
inductive OperationalMessage where
  | NewLocalFile (rel : String)
  | ModifiedLocalFile (rel : String)
  | DeletedLocalFile (rel : String)
  | RenamedLocalFile (before after : String)
  | NewRemoteFile (content_id : Int)
  | ModifiedRemoteFile (content_id : Int)
  | DeletedRemoteFile (content_id : Int)
  | Exit
deriving DecidableEq, Repr

/-- The error kinds of `src/error.rs` (`enum Error`), restricted to the
constructors the embedded handlers can produce.  The `String` payloads that
only feed log messages are dropped except where a claim inspects them. -/
inductive HError where
  | FailToCreateContentOnRemote
  | UnIndexedRelativePath (rel : String)
  | UnexpectedError
  | PathCastingError
  | PathManipulationError
deriving DecidableEq, Repr

/-- Split a character list on `/` (the forward-slash components of a
`RelativePath`, spec §3).  The result is never empty: the empty path gives
one empty component. -/
def split_on_slash : List Char → List (List Char)
  | [] => [[]]
  | c :: cs =>
    match split_on_slash cs with
    | [] => [[]]
    | g :: gs => if c = '/' then [] :: g :: gs else (c :: g) :: gs

/-- The forward-slash components of a relative path. -/
def path_components (p : String) : List (List Char) :=
  split_on_slash p.data

/-- Join components back with `/` separators. -/
def join_slash : List (List Char) → List Char
  | [] => []
  | [g] => g
  | g :: g2 :: gs => g ++ '/' :: join_slash (g2 :: gs)

/-- Rust `str::starts_with` with a one-character pattern (the only patterns
the program uses: `"."`, `"~"`, `"#"`). -/
def starts_with_char (s : String) (c : Char) : Bool :=
  s.data.head? == some c

/-- Rust `str::ends_with` with a one-character pattern (the program only uses
`"~"`). -/
def ends_with_char (s : String) (c : Char) : Bool :=
  s.data.getLast? == some c

/-- Modelled from the spec: `util::string_path_file_name` (in `util.rs`, which
is absent from the given sources).  It extracts the basename (last path
component) of a relative path, failing when none can be extracted (empty
path, a path ending in a separator, or one ending in `..`), mirroring Rust
`Path::file_name` followed by the string cast. -/
def string_path_file_name (p : String) : Except HError String :=
  match (path_components p).getLast? with
  | some s =>
    if s = [] ∨ s = ['.', '.'] then .error .PathManipulationError else .ok ⟨s⟩
  | none => .error .PathManipulationError

/-- Modelled from the spec: the parent component of a relative path
(`Path::parent` composed with the workspace-relative view used by
`util::FileInfos::parent_id`): `some` of the directory part when the path has
one, `none` for a top-level entry (which the spec maps to hub root). -/
def parent_relative_path (p : String) : Option String :=
  match (path_components p).dropLast with
  | [] => none
  | comps => some ⟨join_slash comps⟩

/-- One row of the persistent local index.  Modelled from the spec
(§3 IndexEntry, §4.1): `{relative_path, content_id, revision_id,
last_modified_ms}`; `database.rs` is absent from the given sources. -/
structure IndexEntry where
  relative_path : String
  content_id : Int
  revision_id : Int
  last_modified : Nat
deriving DecidableEq, Repr

/-- The local index as a list of rows (the embedded relational table of
`database.rs`, modelled from the spec §4.1). -/
abbrev Db := List IndexEntry

/-- Modelled from the spec: `DatabaseOperation::relative_path_is_known`. -/
def relative_path_is_known (db : Db) (p : String) : Bool :=
  db.any (fun e => e.relative_path == p)

/-- Modelled from the spec: `DatabaseOperation::content_id_is_known`. -/
def content_id_is_known (db : Db) (id : Int) : Bool :=
  db.any (fun e => e.content_id == id)

/-- Modelled from the spec: `DatabaseOperation::get_content_id_from_path`;
`NotIndexed(p)` (the `UnIndexedRelativePath` error) when no row matches. -/
def get_content_id_from_path (db : Db) (p : String) : Except HError Int :=
  match db.find? (fun e => e.relative_path == p) with
  | some e => .ok e.content_id
  | none => .error (.UnIndexedRelativePath p)

/-- Modelled from the spec: `DatabaseOperation::get_path_from_content_id`. -/
def get_path_from_content_id (db : Db) (id : Int) : Except HError String :=
  match db.find? (fun e => e.content_id == id) with
  | some e => .ok e.relative_path
  | none => .error .UnexpectedError

/-- Modelled from the spec: `DatabaseOperation::get_last_modified_timestamp`;
`none` embeds rusqlite's `QueryReturnedNoRows`. -/
def get_last_modified_timestamp (db : Db) (p : String) : Option Nat :=
  (db.find? (fun e => e.relative_path == p)).map (fun e => e.last_modified)

/-- Modelled from the spec: `DatabaseOperation::get_relative_paths`. -/
def get_relative_paths (db : Db) : List String :=
  db.map (fun e => e.relative_path)

/-- Modelled from the spec: `DatabaseOperation::insert_new_file`. -/
def insert_new_file (db : Db) (p : String) (mtime : Nat) (cid rid : Int) : Db :=
  db ++ [⟨p, cid, rid, mtime⟩]

/-- Modelled from the spec: `DatabaseOperation::update_relative_path`. -/
def update_relative_path (db : Db) (cid : Int) (new_p : String) : Db :=
  db.map (fun e => if e.content_id == cid then { e with relative_path := new_p } else e)

/-- Modelled from the spec: `DatabaseOperation::update_revision_id`. -/
def update_revision_id (db : Db) (p : String) (rid : Int) : Db :=
  db.map (fun e => if e.relative_path == p then { e with revision_id := rid } else e)

/-- Modelled from the spec: `DatabaseOperation::update_last_modified_timestamp`. -/
def update_last_modified_timestamp (db : Db) (p : String) (mtime : Nat) : Db :=
  db.map (fun e => if e.relative_path == p then { e with last_modified := mtime } else e)

/-- Modelled from the spec: `DatabaseOperation::delete_file`. -/
def delete_file (db : Db) (cid : Int) : Db :=
  db.filter (fun e => e.content_id != cid)

/-- The embedding of `OperationalHandler::ignore_message` (src/operation.rs lines 54-71),
made explicit in the ignore-list state: given the current `ignore_messages`
vector and the incoming message, it returns the `Result<bool, Error>` and the
updated vector.  The first branch is Rust
`if self.ignore_messages.contains(&message) { self.ignore_messages.retain(|x| *x != *message); return Ok(true) }`;
`retain` keeps exactly the elements different from `message`.  The second
branch applies the basename filter to the three one-path local messages. -/
def ignore_message (ignore_messages : List OperationalMessage)
    (message : OperationalMessage) :
    Except HError Bool × List OperationalMessage :=
  if message ∈ ignore_messages then
    (.ok true, ignore_messages.filter (fun x => x != message))
  else
    match message with
    | .NewLocalFile rel | .ModifiedLocalFile rel | .DeletedLocalFile rel =>
      (match string_path_file_name rel with
       | .ok name =>
         (.ok (starts_with_char name '.' || ends_with_char name '~'), ignore_messages)
       | .error e => (.error e, ignore_messages))
    | _ => (.ok false, ignore_messages)

/-- What the consumer loop does with the result of `ignore_message`:
`skip` (the `continue`) or `process` (fall through to the handler dispatch). -/
inductive ListenAction where
  | skip
  | process
deriving DecidableEq, Repr

/-- The decision logic of `OperationalHandler::listen`
(src/operation.rs lines 77-86): `Ok(true)` skips, `Err(_)` is logged and the
message is processed, `Ok(false)` is processed. -/
def listen_decision (r : Except HError Bool) : ListenAction :=
  match r with
  | .ok true => .skip
  | .error _ => .process
  | .ok false => .process

/-- The content type of a disk object (`types.rs` is absent from the given
sources; the spec §3 gives `ContentType`: `File` or `Folder`). -/
inductive ContentType where
  | file
  | folder
deriving DecidableEq, Repr

/-- Metadata of one disk object: its content type and its mtime in
milliseconds. -/
structure DiskEntry where
  content_type : ContentType
  mtime : Nat
deriving DecidableEq, Repr

/-- The workspace disk state, as a finite map from workspace-relative path to
metadata.  All paths in the embedding are workspace-relative: the Rust code
forms `absolute_path = folder_path.join(relative_path)` and strips the prefix
back off, a bijection for a fixed workspace root. -/
abbrev Disk := List (String × DiskEntry)

/-- Look a relative path up on the disk. -/
def disk_get (disk : Disk) (rel : String) : Option DiskEntry :=
  (disk.find? (fun x => x.1 == rel)).map (fun x => x.2)

/-- Remove a relative path from the disk. -/
def disk_remove (disk : Disk) (rel : String) : Disk :=
  disk.filter (fun x => x.1 != rel)

/-- Create or overwrite a disk object (`File::create` + `io::copy`, or
`fs::create_dir_all`). -/
def disk_set (disk : Disk) (rel : String) (e : DiskEntry) : Disk :=
  (rel, e) :: disk_remove disk rel

/-- The embedding of `fs::rename`: fails when the source does not exist, otherwise moves the
metadata to the new path. -/
def disk_rename (disk : Disk) (oldRel newRel : String) : Except HError Disk :=
  match disk_get disk oldRel with
  | none => .error .UnexpectedError
  | some e => .ok (disk_set (disk_remove disk oldRel) newRel e)

/-- Modelled from the spec: `util::FileInfos` (in `util.rs`, absent from the
given sources): the file infos the handlers read from disk: relative path,
basename, content type and last-modified timestamp. -/
structure FileInfos where
  relative_path : String
  file_name : String
  content_type : ContentType
  last_modified_timestamp : Nat
deriving DecidableEq, Repr

/-- Modelled from the spec: `util::FileInfos::from(folder_path, relative_path)`
reads the disk metadata of the object; it fails when the object is absent or
no basename can be extracted. -/
def FileInfos.from_disk (disk : Disk) (rel : String) : Except HError FileInfos :=
  match disk_get disk rel with
  | none => .error .UnexpectedError
  | some de =>
    match string_path_file_name rel with
    | .error e => .error e
    | .ok name => .ok ⟨rel, name, de.content_type, de.mtime⟩

/-- Modelled from the spec (§4.5.1 step 3): `util::FileInfos::parent_id`
resolves the parent directory in the index; a top-level entry maps to hub
root (`none`), an unindexed parent raises `UnIndexedRelativePath`. -/
def FileInfos.parent_id (fi : FileInfos) (db : Db) : Except HError (Option Int) :=
  match parent_relative_path fi.relative_path with
  | none => .ok none
  | some prel =>
    match get_content_id_from_path db prel with
    | .ok cid => .ok (some cid)
    | .error e => .error e

/-- The result of `Client::create_content` (the hub collaborator, §6):
success, the absorbed `AlreadyExistResponse(content_id, revision_id)` of
`src/error.rs`, or any other client error. -/
inductive CreateResult where
  | ok (content_id revision_id : Int)
  | alreadyExists (content_id revision_id : Int)
  | otherError
deriving DecidableEq, Repr

/-- A remote content as returned by the hub (spec §3 `RemoteContent`);
`content_type` is the raw string the code compares against `"folder"`
(src/operation.rs lines 352 and 397). -/
structure RemoteContent where
  content_id : Int
  parent_id : Option Int
  filename : String
  content_type : String
  current_revision_id : Int
deriving DecidableEq, Repr

/-- The hub HTTP client as an oracle (collaborator contract, spec §6;
`client.rs` is absent from the given sources).  Paths passed to it are
workspace-relative (the fixed workspace prefix of the Rust absolute paths is
dropped). -/
structure Client where
  create_content : String → ContentType → Option Int → CreateResult
  update_content : String → String → ContentType → Int → Except HError Int
  trash_content : Int → Except HError Unit
  get_remote_content : Int → Except HError RemoteContent
  build_relative_path : RemoteContent → Except HError String
  get_file_content : Int → String → Except HError Unit

/-- Observable actions of a handler call, in program order: ignore-list
pushes, hub mutations, and disk mutations. -/
inductive Event where
  | push (m : OperationalMessage)
  | hubCreate (rel : String)
  | hubUpdate (content_id : Int)
  | hubTrash (content_id : Int)
  | diskMkdir (rel : String)
  | diskWrite (rel : String)
  | diskRename (oldRel newRel : String)
deriving DecidableEq, Repr

/-- Is the event an ignore-list push? -/
def Event.isPush : Event → Bool
  | .push _ => true
  | _ => false

/-- Is the event an outbound mutation (hub call or disk write)? -/
def Event.isOutboundMutation : Event → Bool
  | .push _ => false
  | _ => true

/-- Holds (is `true`) iff no push occurs after an outbound mutation in the trace, i.e.
every predicted echo is pushed before every outbound mutation of the call. -/
def pushes_before_mutations : List Event → Bool
  | [] => true
  | e :: rest =>
    if e.isOutboundMutation then rest.all (fun x => !x.isPush)
    else pushes_before_mutations rest

/-- The mutable state a handler call touches: the index, the ignore list and
the workspace disk. -/
structure HState where
  db : Db
  ignore_messages : List OperationalMessage
  disk : Disk
deriving DecidableEq, Repr

/-- The embedding of `OperationalHandler::modified_local_file` (src/operation.rs lines
197-226): read file infos, resolve the content id, push the
`ModifiedRemoteFile` echo, update the content on the hub, then update the
index's mtime and revision id. -/
def modified_local_file (client : Client) (st : HState) (rel : String) :
    Except HError Unit × HState × List Event :=
  match FileInfos.from_disk st.disk rel with
  | .error e => (.error e, st, [])
  | .ok fi =>
    match get_content_id_from_path st.db fi.relative_path with
    | .error e => (.error e, st, [])
    | .ok content_id =>
      let st1 := { st with
        ignore_messages := st.ignore_messages ++ [.ModifiedRemoteFile content_id] }
      let tr1 := [Event.push (.ModifiedRemoteFile content_id), Event.hubUpdate content_id]
      match client.update_content fi.relative_path fi.file_name fi.content_type content_id with
      | .error e => (.error e, st1, tr1)
      | .ok revision_id =>
        let db1 := update_last_modified_timestamp st1.db fi.relative_path
          fi.last_modified_timestamp
        let db2 := update_revision_id db1 fi.relative_path revision_id
        (.ok (), { st1 with db := db2 }, tr1)

/-- The embedding of `OperationalHandler::new_local_file` (src/operation.rs lines 131-195).
The Rust recursion on the parent path is unbounded; the embedding carries a
fuel parameter and returns `none` when the given depth is exhausted, so a
`none` for every fuel is a divergence of the source.  On a known path it
dispatches to `modified_local_file`; otherwise it resolves the parent id
(recursively materializing an unindexed parent), calls `create_content`,
pushes the echo messages only in the success branch, absorbs
`AlreadyExistResponse`, and inserts the index row. -/
def new_local_file (client : Client) :
    Nat → HState → String → Option (Except HError Unit × HState × List Event)
  | 0, _, _ => none
  | fuel + 1, st, rel =>
    if relative_path_is_known st.db rel then
      some (modified_local_file client st rel)
    else
      match FileInfos.from_disk st.disk rel with
      | .error e => some (.error e, st, [])
      | .ok fi =>
        let pres : Option (Except HError (Option Int) × HState × List Event) :=
          match FileInfos.parent_id fi st.db with
          | .ok pid => some (.ok pid, st, [])
          | .error (.UnIndexedRelativePath prel) =>
            match new_local_file client fuel st prel with
            | none => none
            | some (.error e, st1, tr1) => some (.error e, st1, tr1)
            | some (.ok _, st1, tr1) =>
              match get_content_id_from_path st1.db prel with
              | .error e => some (.error e, st1, tr1)
              | .ok cid => some (.ok (some cid), st1, tr1)
          | .error e => some (.error e, st, [])
        match pres with
        | none => none
        | some (.error e, st1, tr1) => some (.error e, st1, tr1)
        | some (.ok parent_id, st1, tr1) =>
          let tr2 := tr1 ++ [Event.hubCreate fi.relative_path]
          match client.create_content fi.relative_path fi.content_type parent_id with
          | .ok content_id revision_id =>
            let pushes := [OperationalMessage.NewRemoteFile content_id] ++
              (if fi.content_type = ContentType.file then
                [OperationalMessage.ModifiedRemoteFile content_id] else [])
            let st2 := { st1 with
              ignore_messages := st1.ignore_messages ++ pushes,
              db := insert_new_file st1.db fi.relative_path fi.last_modified_timestamp
                content_id revision_id }
            some (.ok (), st2, tr2 ++ pushes.map Event.push)
          | .alreadyExists content_id revision_id =>
            let st2 := { st1 with
              db := insert_new_file st1.db fi.relative_path fi.last_modified_timestamp
                content_id revision_id }
            some (.ok (), st2, tr2)
          | .otherError => some (.error .FailToCreateContentOnRemote, st1, tr2)

/-- The embedding of `OperationalHandler::deleted_local_file` (src/operation.rs lines
228-246): resolve the content id, trash on the hub, push the
`DeletedRemoteFile` echo, delete the index row. -/
def deleted_local_file (client : Client) (st : HState) (rel : String) :
    Except HError Unit × HState × List Event :=
  match get_content_id_from_path st.db rel with
  | .error e => (.error e, st, [])
  | .ok content_id =>
    let tr1 := [Event.hubTrash content_id]
    match client.trash_content content_id with
    | .error e => (.error e, st, tr1)
    | .ok _ =>
      (.ok (), { st with
        ignore_messages := st.ignore_messages ++ [.DeletedRemoteFile content_id],
        db := delete_file st.db content_id },
       tr1 ++ [Event.push (.DeletedRemoteFile content_id)])

/-- The path `folder.join(rel).parent().join(filename)` stripped back to a relative
path (src/operation.rs lines 401-408): the new basename inside `rel`'s
existing parent. -/
def rename_within_parent (rel filename : String) : String :=
  match parent_relative_path rel with
  | none => filename
  | some p => ⟨p.data ++ '/' :: filename.data⟩

/-- The embedding of `OperationalHandler::modified_remote_file` (src/operation.rs lines
388-472).  `wm` is the filesystem's mtime assignment for freshly written
objects.  Folder branch: look the current path up in the index, rename the
disk directory to the remote basename inside its existing parent, push the
`ModifiedLocalFile(new_rel)` echo and return — without touching the index.
File branch: rename on disk if the remote filename changed (updating the
index path), push the `ModifiedLocalFile` echo, download and overwrite the
file, then update the index's mtime and revision id. -/
def modified_remote_file (client : Client) (wm : String → Nat) (st : HState)
    (content_id : Int) : Except HError Unit × HState × List Event :=
  match client.get_remote_content content_id with
  | .error e => (.error e, st, [])
  | .ok rc =>
    match client.build_relative_path rc with
    | .error e => (.error e, st, [])
    | .ok relative_path =>
      if rc.content_type == "folder" then
        match get_path_from_content_id st.db content_id with
        | .error e => (.error e, st, [])
        | .ok rel2 =>
          let new_rel := rename_within_parent rel2 rc.filename
          match disk_rename st.disk rel2 new_rel with
          | .error e => (.error e, st, [Event.diskRename rel2 new_rel])
          | .ok disk1 =>
            (.ok (),
             { st with
               disk := disk1,
               ignore_messages := st.ignore_messages ++ [.ModifiedLocalFile new_rel] },
             [Event.diskRename rel2 new_rel, Event.push (.ModifiedLocalFile new_rel)])
      else
        match get_path_from_content_id st.db content_id with
        | .error e => (.error e, st, [])
        | .ok current_rel =>
          match FileInfos.from_disk st.disk current_rel with
          | .error e => (.error e, st, [])
          | .ok fi =>
            let renamed : Except HError (HState × List Event) :=
              if rc.filename != fi.file_name then
                match disk_rename st.disk current_rel relative_path with
                | .error _ => .error .UnexpectedError
                | .ok disk1 =>
                  .ok ({ st with
                         disk := disk1,
                         db := update_relative_path st.db content_id relative_path },
                       [Event.diskRename current_rel relative_path])
              else .ok (st, [])
            match renamed with
            | .error e => (.error e, st, [Event.diskRename current_rel relative_path])
            | .ok (st1, tr1) =>
              let st2 := { st1 with
                ignore_messages := st1.ignore_messages ++ [.ModifiedLocalFile relative_path] }
              let tr2 := tr1 ++ [Event.push (.ModifiedLocalFile relative_path)]
              match client.get_file_content content_id rc.filename with
              | .error e => (.error e, st2, tr2)
              | .ok _ =>
                let disk2 := disk_set st2.disk relative_path
                  ⟨ContentType.file, wm relative_path⟩
                let tr3 := tr2 ++ [Event.diskWrite relative_path]
                match FileInfos.from_disk disk2 relative_path with
                | .error e => (.error e, { st2 with disk := disk2 }, tr3)
                | .ok fi2 =>
                  let db1 := update_last_modified_timestamp st2.db relative_path
                    fi2.last_modified_timestamp
                  let db2 := update_revision_id db1 relative_path rc.current_revision_id
                  (.ok (), { st2 with disk := disk2, db := db2 }, tr3)

/-- The embedding of `OperationalHandler::new_remote_file` (src/operation.rs lines 331-386).
The Rust recursion on an unknown parent content id is unbounded; the
embedding carries a fuel parameter and returns `none` when the given depth is
exhausted, so a `none` for every fuel is a divergence of the source.  It
fetches the remote content, builds its relative path, pushes the
`NewLocalFile` echo, recursively materializes an unknown parent, writes the
folder or downloads the file, and inserts the index row with the fresh disk
mtime. -/
def new_remote_file (client : Client) (wm : String → Nat) :
    Nat → HState → Int → Option (Except HError Unit × HState × List Event)
  | 0, _, _ => none
  | fuel + 1, st, content_id =>
    match client.get_remote_content content_id with
    | .error e => some (.error e, st, [])
    | .ok rc =>
      match client.build_relative_path rc with
      | .error e => some (.error e, st, [])
      | .ok relative_path =>
        let st1 := { st with
          ignore_messages := st.ignore_messages ++ [.NewLocalFile relative_path] }
        let tr1 := [Event.push (.NewLocalFile relative_path)]
        let parents : Option (Except HError Unit × HState × List Event) :=
          match rc.parent_id with
          | some pid =>
            if !content_id_is_known st1.db pid then
              match new_remote_file client wm fuel st1 pid with
              | none => none
              | some (.error e, st2, tr2) => some (.error e, st2, tr1 ++ tr2)
              | some (.ok _, st2, tr2) => some (.ok (), st2, tr1 ++ tr2)
            else some (.ok (), st1, tr1)
          | none => some (.ok (), st1, tr1)
        match parents with
        | none => none
        | some (.error e, st2, tr2) => some (.error e, st2, tr2)
        | some (.ok _, st2, tr2) =>
          let written : Except HError (HState × List Event) :=
            if rc.content_type == "folder" then
              let disk1 := disk_set st2.disk relative_path ⟨ContentType.folder, wm relative_path⟩
              .ok ({ st2 with disk := disk1 }, tr2 ++ [Event.diskMkdir relative_path])
            else
              match client.get_file_content rc.content_id rc.filename with
              | .error e => .error e
              | .ok _ =>
                let disk1 := disk_set st2.disk relative_path ⟨ContentType.file, wm relative_path⟩
                .ok ({ st2 with disk := disk1 }, tr2 ++ [Event.diskWrite relative_path])
          match written with
          | .error e => some (.error e, st2, tr2)
          | .ok (st3, tr3) =>
            match FileInfos.from_disk st3.disk relative_path with
            | .error e => some (.error e, st3, tr3)
            | .ok fi =>
              match client.get_remote_content content_id with
              | .error e => some (.error e, st3, tr3)
              | .ok content =>
                some (.ok (), { st3 with
                  db := insert_new_file st3.db fi.relative_path
                    fi.last_modified_timestamp content_id content.current_revision_id },
                 tr3)

/-- The basename `entry.path().file_name()` of a walked entry, as a workspace-relative
path: the last path component, `none` when there is none (the workspace root
or a path ending in a separator). -/
def entry_file_name (rel : String) : Option String :=
  match (path_components rel).getLast? with
  | some s => if s = [] then none else some ⟨s⟩
  | none => none

/-- The embedding of `LocalSync::ignore_entry` (src/local.rs lines 156-171) on the extracted
basename: skip walked entries whose basename starts with `.`, `~` or `#`. -/
def ignore_entry (file_name : String) : Bool :=
  starts_with_char file_name '.' || starts_with_char file_name '~' ||
    starts_with_char file_name '#'

/-- The embedding of `LocalSync::ignore_entry` on a walked entry: an entry with no extractable
basename is not skipped (the `if let` chain falls through to `false`). -/
def entry_ignored (rel : String) : Bool :=
  match entry_file_name rel with
  | some n => ignore_entry n
  | none => false

/-- The embedding of `LocalSync::sync_disk_file` (src/local.rs lines 173-229) for one walked
entry, given its workspace-relative path and its disk mtime: the root
(empty relative path) emits nothing; a path unknown to the index
(`QueryReturnedNoRows`) emits `NewLocalFile`; a known path emits
`ModifiedLocalFile` exactly when the disk mtime differs from the indexed
one. -/
def sync_disk_file (db : Db) (rel : String) (disk_mtime : Nat) :
    List OperationalMessage :=
  if rel = "" then []
  else
    match get_last_modified_timestamp db rel with
    | some ts => if disk_mtime ≠ ts then [.ModifiedLocalFile rel] else []
    | none => [.NewLocalFile rel]

/-- The embedding of `LocalSync::sync_from_disk` (src/local.rs lines 139-154): walk the
workspace (the walk is given as a list of entries, each a relative path with
its disk mtime, in walk order), keep the entries the basename filter does not
skip, and emit the per-entry messages. -/
def sync_from_disk (db : Db) (walk : List (String × Nat)) :
    List OperationalMessage :=
  (walk.filter (fun e => !entry_ignored e.1)).flatMap
    (fun e => sync_disk_file db e.1 e.2)

/-- The embedding of `LocalSync::sync_from_db` (src/local.rs lines 231-248): for each indexed
relative path whose disk object no longer exists, emit `DeletedLocalFile`. -/
def sync_from_db (db : Db) (disk_has : String → Bool) :
    List OperationalMessage :=
  (get_relative_paths db).filterMap
    (fun p => if !disk_has p then some (.DeletedLocalFile p) else none)

/-- The embedding of `LocalSync::sync` (src/local.rs lines 130-137): the startup reconciler
emits the disk-walk messages then the index-scan messages.  It only reads the
index and the disk; the emitted messages are its sole output. -/
def local_sync (db : Db) (walk : List (String × Nat)) (disk_has : String → Bool) :
    List OperationalMessage :=
  sync_from_disk db walk ++ sync_from_db db disk_has

/-- Two consecutive runs of the startup reconciler with no interleaved change
to the disk or the index.  `LocalSync::sync` (src/local.rs lines 130-137)
only reads the index and the disk and only emits messages, so the second run
sees the same inputs as the first; the pair is (first run's messages, second
run's messages). -/
def local_sync_twice (db : Db) (walk : List (String × Nat))
    (disk_has : String → Bool) :
    List OperationalMessage × List OperationalMessage :=
  (local_sync db walk disk_has, local_sync db walk disk_has)

/-- A concrete hub oracle for runs of the local handlers: the create succeeds
with ids (42, 3), the update returns revision 9, the trash succeeds. -/
def okClient : Client where
  create_content := fun _ _ _ => .ok 42 3
  update_content := fun _ _ _ _ => .ok 9
  trash_content := fun _ => .ok ()
  get_remote_content := fun _ => .error .UnexpectedError
  build_relative_path := fun rc => .ok rc.filename
  get_file_content := fun _ _ => .ok ()

/-- Like `okClient`, but the hub answers the create with
`AlreadyExistResponse(42, 3)` (spec §8 scenario 3). -/
def existsClient : Client :=
  { okClient with create_content := fun _ _ _ => .alreadyExists 42 3 }

/-- A workspace holding the single unindexed file `notes.txt` (mtime 5), with
an empty index and an empty ignore list. -/
def notesState : HState :=
  ⟨[], [], [("notes.txt", ⟨ContentType.file, 5⟩)]⟩

/-- An index holding the single file `a.bin` (content 11), already gone from
disk (spec §8 scenario 4). -/
def abinState : HState :=
  ⟨[⟨"a.bin", 11, 1, 0⟩], [], []⟩

/-- The hub oracle of spec §8 scenario 2: content 7 is a folder renamed
remotely to `documents`. -/
def folderRenameClient : Client where
  create_content := fun _ _ _ => .otherError
  update_content := fun _ _ _ _ => .error .UnexpectedError
  trash_content := fun _ => .error .UnexpectedError
  get_remote_content := fun cid =>
    if cid = 7 then .ok ⟨7, none, "documents", "folder", 2⟩
    else .error .UnexpectedError
  build_relative_path := fun rc => .ok rc.filename
  get_file_content := fun _ _ => .error .UnexpectedError

/-- The state of spec §8 scenario 2: the folder `docs` indexed as content 7
and present on disk. -/
def folderRenameState : HState :=
  ⟨[⟨"docs", 7, 1, 10⟩], [], [("docs", ⟨ContentType.folder, 10⟩)]⟩

/-- A hub whose remote parent chain is cyclic (malformed remote data, spec
§9): content 1's parent is content 2 and content 2's parent is content 1. -/
def cyclicClient : Client where
  create_content := fun _ _ _ => .otherError
  update_content := fun _ _ _ _ => .error .UnexpectedError
  trash_content := fun _ => .error .UnexpectedError
  get_remote_content := fun cid =>
    if cid = 1 then .ok ⟨1, some 2, "a", "folder", 1⟩
    else if cid = 2 then .ok ⟨2, some 1, "b", "folder", 1⟩
    else .error .UnexpectedError
  build_relative_path := fun rc => .ok rc.filename
  get_file_content := fun _ _ => .ok ()

/-!  Theorems settling the claims. -/

/-- C1, counterexample: with the ignore list holding two equal entries
`NewRemoteFile 1`, one matching consumption removes both occurrences (Rust
`Vec::retain` keeps only the elements different from the message), leaving
zero occurrences rather than the exactly one the claim requires. -/
theorem C1_counterexample :
    (ignore_message [.NewRemoteFile 1, .NewRemoteFile 1] (.NewRemoteFile 1)).1 =
      .ok true ∧
    (ignore_message [.NewRemoteFile 1, .NewRemoteFile 1] (.NewRemoteFile 1)).2.count
      (.NewRemoteFile 1) = 0 ∧
    (ignore_message [.NewRemoteFile 1, .NewRemoteFile 1] (.NewRemoteFile 1)).2.count
      (.NewRemoteFile 1) ≠ 1 := by
  decide

/-- C1 (amended): on consumption of a message equal to at least one entry of
the ignore list, the handler skips the message and removes every occurrence
of it from the list (set-like removal via `retain`), leaving zero occurrences
behind. -/
theorem C1_matching_consumption_removes_all (l : List OperationalMessage)
    (m : OperationalMessage) (h : m ∈ l) :
    (ignore_message l m).1 = .ok true ∧
    (ignore_message l m).2 = l.filter (fun x => x != m) ∧
    (ignore_message l m).2.count m = 0 := by
  refine ⟨?_, ?_, ?_⟩ <;> simp only [ignore_message, if_pos h]
  simp [List.count_eq_zero, List.mem_filter]

/-- C1, witness: the amended statement at a concrete two-copy list. -/
theorem C1_matching_consumption_removes_all_witness :
    (ignore_message [.NewRemoteFile 2, .NewRemoteFile 2] (.NewRemoteFile 2)).1 =
      .ok true ∧
    (ignore_message [.NewRemoteFile 2, .NewRemoteFile 2] (.NewRemoteFile 2)).2 =
      ([.NewRemoteFile 2, .NewRemoteFile 2] : List OperationalMessage).filter
        (fun x => x != .NewRemoteFile 2) ∧
    (ignore_message [.NewRemoteFile 2, .NewRemoteFile 2] (.NewRemoteFile 2)).2.count
      (.NewRemoteFile 2) = 0 :=
  C1_matching_consumption_removes_all _ _ (by decide)

/-- C4, counterexample: a `RenamedLocalFile` message whose basenames start
with `.` is not dropped: the basename filter of `ignore_message` covers only
the three one-path local messages, so the consumer processes the rename. -/
theorem C4_counterexample :
    (ignore_message [] (.RenamedLocalFile ".hidden" ".hidden2")).1 = .ok false ∧
    listen_decision (ignore_message [] (.RenamedLocalFile ".hidden" ".hidden2")).1 =
      .process := by
  decide

/-- C4 (amended): `NewLocalFile`, `ModifiedLocalFile` and `DeletedLocalFile`
messages whose basename starts with `.` or ends with `~` are silently
dropped by the consumer; `RenamedLocalFile` is not subject to the basename
filter, and is processed whenever it is not a planned ignore. -/
theorem C4_basename_filter (l : List OperationalMessage) (rel name b a : String)
    (hname : string_path_file_name rel = .ok name)
    (hpat : (starts_with_char name '.' || ends_with_char name '~') = true)
    (hren : OperationalMessage.RenamedLocalFile b a ∉ l) :
    listen_decision (ignore_message l (.NewLocalFile rel)).1 = .skip ∧
    listen_decision (ignore_message l (.ModifiedLocalFile rel)).1 = .skip ∧
    listen_decision (ignore_message l (.DeletedLocalFile rel)).1 = .skip ∧
    listen_decision (ignore_message l (.RenamedLocalFile b a)).1 = .process := by
  refine ⟨?_, ?_, ?_, ?_⟩
  · by_cases hm : OperationalMessage.NewLocalFile rel ∈ l <;>
      simp [ignore_message, hm, hname, hpat, listen_decision]
  · by_cases hm : OperationalMessage.ModifiedLocalFile rel ∈ l <;>
      simp [ignore_message, hm, hname, hpat, listen_decision]
  · by_cases hm : OperationalMessage.DeletedLocalFile rel ∈ l <;>
      simp [ignore_message, hm, hname, hpat, listen_decision]
  · simp [ignore_message, hren, listen_decision]

/-- C4, witness: the amended statement at `.gitignore` and a dot-named
rename, with an empty ignore list. -/
theorem C4_basename_filter_witness :
    listen_decision (ignore_message [] (.NewLocalFile ".gitignore")).1 = .skip ∧
    listen_decision (ignore_message [] (.ModifiedLocalFile ".gitignore")).1 = .skip ∧
    listen_decision (ignore_message [] (.DeletedLocalFile ".gitignore")).1 = .skip ∧
    listen_decision (ignore_message [] (.RenamedLocalFile ".x" ".y")).1 = .process :=
  C4_basename_filter [] ".gitignore" ".gitignore" ".x" ".y" (by decide) (by decide)
    (by decide)

/-- C10: when `ignore_message` itself fails (the basename of the path cannot
be extracted), the consumer loop's decision is to process the message, not
to skip it: the `Err` arm of the match in `listen` maps to `false`. -/
theorem C10_ignore_error_processes (l : List OperationalMessage) (rel : String)
    (e : HError) (hnotin : OperationalMessage.NewLocalFile rel ∉ l)
    (herr : string_path_file_name rel = .error e) :
    (ignore_message l (.NewLocalFile rel)).1 = .error e ∧
    listen_decision (ignore_message l (.NewLocalFile rel)).1 = .process := by
  refine ⟨?_, ?_⟩ <;> simp [ignore_message, hnotin, herr, listen_decision]

/-- C10, witness: the empty relative path has no extractable basename; with
an empty ignore list the decision for `NewLocalFile ""` is to process. -/
theorem C10_ignore_error_processes_witness :
    (ignore_message [] (.NewLocalFile "")).1 = .error .PathManipulationError ∧
    listen_decision (ignore_message [] (.NewLocalFile "")).1 = .process :=
  C10_ignore_error_processes [] "" .PathManipulationError (by decide) (by decide)

/-- C3, counterexample: handling `DeletedLocalFile "a.bin"` issues the hub
trash call before pushing the predicted `DeletedRemoteFile` echo, and
handling `NewLocalFile "notes.txt"` issues the hub create before pushing its
predicted echoes, so a predicted echo is still unpushed while the outbound
call runs. -/
theorem C3_counterexample :
    (deleted_local_file okClient abinState "a.bin").2.2 =
      [Event.hubTrash 11, Event.push (.DeletedRemoteFile 11)] ∧
    pushes_before_mutations (deleted_local_file okClient abinState "a.bin").2.2 =
      false ∧
    (new_local_file okClient 1 notesState "notes.txt").map (fun r => r.2.2) =
      some [Event.hubCreate "notes.txt", Event.push (.NewRemoteFile 42),
        Event.push (.ModifiedRemoteFile 42)] ∧
    pushes_before_mutations [Event.hubCreate "notes.txt",
      Event.push (.NewRemoteFile 42), Event.push (.ModifiedRemoteFile 42)] = false := by
  decide

/-- C3 (amended): `modified_local_file` pushes its predicted echo before its
outbound mutation (no push follows a mutation in its trace, for every input);
but `deleted_local_file` pushes `DeletedRemoteFile` only after the hub trash
call, and `new_local_file` (non-recursive success path) pushes its echoes
only after the hub create call. -/
theorem C3_push_order :
    (∀ (client : Client) (st : HState) (rel : String),
      pushes_before_mutations (modified_local_file client st rel).2.2 = true) ∧
    (∀ (client : Client) (st : HState) (rel : String) (cid : Int),
      get_content_id_from_path st.db rel = .ok cid →
      client.trash_content cid = .ok () →
      (deleted_local_file client st rel).2.2 =
        [Event.hubTrash cid, Event.push (.DeletedRemoteFile cid)]) ∧
    (∀ (client : Client) (fuel : Nat) (st : HState) (rel : String)
      (fi : FileInfos) (pid : Option Int) (cid rid : Int),
      relative_path_is_known st.db rel = false →
      FileInfos.from_disk st.disk rel = .ok fi →
      FileInfos.parent_id fi st.db = .ok pid →
      client.create_content fi.relative_path fi.content_type pid = .ok cid rid →
      (new_local_file client (fuel + 1) st rel).map (fun r => r.2.2) =
        some ([Event.hubCreate fi.relative_path, Event.push (.NewRemoteFile cid)] ++
          (if fi.content_type = ContentType.file then
            [Event.push (.ModifiedRemoteFile cid)] else []))) := by
  refine ⟨?_, ?_, ?_⟩
  · intro client st rel
    unfold modified_local_file
    cases hfi : FileInfos.from_disk st.disk rel with
    | error e => rfl
    | ok fi =>
      cases hcid : get_content_id_from_path st.db fi.relative_path with
      | error e => simp [hcid, pushes_before_mutations]
      | ok cid =>
        cases hupd : client.update_content fi.relative_path fi.file_name
            fi.content_type cid with
        | error e =>
          simp [hcid, hupd, pushes_before_mutations, Event.isPush,
            Event.isOutboundMutation]
        | ok rid =>
          simp [hcid, hupd, pushes_before_mutations, Event.isPush,
            Event.isOutboundMutation]
  · intro client st rel cid hcid htrash
    simp [deleted_local_file, hcid, htrash]
  · intro client fuel st rel fi pid cid rid hknown hfi hpid hcreate
    simp [new_local_file, hknown, hfi, hpid, hcreate]
    split <;> rfl

/-- C3, witness: the amended statement at concrete runs against `okClient`. -/
theorem C3_push_order_witness :
    pushes_before_mutations (modified_local_file okClient abinState "a.bin").2.2 =
      true ∧
    (deleted_local_file okClient abinState "a.bin").2.2 =
      [Event.hubTrash 11, Event.push (.DeletedRemoteFile 11)] ∧
    (new_local_file okClient 1 notesState "notes.txt").map (fun r => r.2.2) =
      some ([Event.hubCreate "notes.txt", Event.push (.NewRemoteFile 42)] ++
        (if ContentType.file = ContentType.file then
          [Event.push (.ModifiedRemoteFile 42)] else [])) :=
  ⟨C3_push_order.1 okClient abinState "a.bin",
   C3_push_order.2.1 okClient abinState "a.bin" 11 (by decide) (by decide),
   C3_push_order.2.2 okClient 0 notesState "notes.txt"
     ⟨"notes.txt", "notes.txt", ContentType.file, 5⟩ none 42 3
     (by decide) (by decide) (by decide) (by decide)⟩

/-- C5: when the hub answers the create of `new_local_file` with
`AlreadyExistResponse(cid, rid)`, the handler succeeds, issues exactly the
one create call (the whole trace is that single hub call), and inserts the
index row with the disk mtime and the identifiers the hub returned. -/
theorem C5_already_exists_absorbed (client : Client) (fuel : Nat) (st : HState)
    (rel name : String) (de : DiskEntry) (pid : Option Int) (cid rid : Int)
    (hknown : relative_path_is_known st.db rel = false)
    (hde : disk_get st.disk rel = some de)
    (hname : string_path_file_name rel = .ok name)
    (hpid : FileInfos.parent_id ⟨rel, name, de.content_type, de.mtime⟩ st.db = .ok pid)
    (hcreate : client.create_content rel de.content_type pid = .alreadyExists cid rid) :
    new_local_file client (fuel + 1) st rel =
      some (.ok (),
        { st with db := insert_new_file st.db rel de.mtime cid rid },
        [Event.hubCreate rel]) := by
  simp [new_local_file, FileInfos.from_disk, hknown, hde, hname, hpid, hcreate]

/-- C5, witness: spec §8 scenario 3 concretely: creating `notes.txt` against
a hub answering `AlreadyExists(42, 3)` inserts `(notes.txt, 42, 3, mtime 5)`
after the single create call. -/
theorem C5_already_exists_absorbed_witness :
    new_local_file existsClient 1 notesState "notes.txt" =
      some (.ok (),
        { notesState with db := insert_new_file notesState.db "notes.txt" 5 42 3 },
        [Event.hubCreate "notes.txt"]) :=
  C5_already_exists_absorbed existsClient 0 notesState "notes.txt" "notes.txt"
    ⟨ContentType.file, 5⟩ none 42 3 (by decide) (by decide) (by decide) (by decide)
    (by decide)

/-- C9: in the `AlreadyExistResponse` branch of `new_local_file` no echo
prediction is pushed: the ignore list after the call equals the ignore list
before it. -/
theorem C9_already_exists_ignore_unchanged (client : Client) (fuel : Nat)
    (st : HState) (rel name : String) (de : DiskEntry) (pid : Option Int)
    (cid rid : Int)
    (hknown : relative_path_is_known st.db rel = false)
    (hde : disk_get st.disk rel = some de)
    (hname : string_path_file_name rel = .ok name)
    (hpid : FileInfos.parent_id ⟨rel, name, de.content_type, de.mtime⟩ st.db = .ok pid)
    (hcreate : client.create_content rel de.content_type pid = .alreadyExists cid rid) :
    (new_local_file client (fuel + 1) st rel).map (fun r => r.2.1.ignore_messages) =
      some st.ignore_messages := by
  simp [new_local_file, FileInfos.from_disk, hknown, hde, hname, hpid, hcreate]

/-- C9, witness: the create collision on `notes.txt` leaves the (empty)
ignore list untouched. -/
theorem C9_already_exists_ignore_unchanged_witness :
    (new_local_file existsClient 1 notesState "notes.txt").map
      (fun r => r.2.1.ignore_messages) = some notesState.ignore_messages :=
  C9_already_exists_ignore_unchanged existsClient 0 notesState "notes.txt"
    "notes.txt" ⟨ContentType.file, 5⟩ none 42 3 (by decide) (by decide) (by decide)
    (by decide) (by decide)

/-- C2, counterexample: handling `ModifiedRemoteFile 7` for the remotely
renamed folder `docs → documents` (spec §8 scenario 2) renames the disk
folder and pushes the echo, but leaves the index untouched: content 7 still
maps to `docs` and not to `documents`, so "updates the index for that
content" fails on this input. -/
theorem C2_counterexample :
    (modified_remote_file folderRenameClient (fun _ => 10) folderRenameState 7).1 =
      .ok () ∧
    (modified_remote_file folderRenameClient (fun _ => 10)
      folderRenameState 7).2.1.db = folderRenameState.db ∧
    get_path_from_content_id
      (modified_remote_file folderRenameClient (fun _ => 10)
        folderRenameState 7).2.1.db 7 = .ok "docs" ∧
    get_path_from_content_id
      (modified_remote_file folderRenameClient (fun _ => 10)
        folderRenameState 7).2.1.db 7 ≠ .ok "documents" ∧
    disk_get (modified_remote_file folderRenameClient (fun _ => 10)
      folderRenameState 7).2.1.disk "documents" = some ⟨ContentType.folder, 10⟩ ∧
    (modified_remote_file folderRenameClient (fun _ => 10)
      folderRenameState 7).2.1.ignore_messages = [.ModifiedLocalFile "documents"] := by
  decide

/-- C2 (amended): for a remote content of type folder, `modified_remote_file`
renames the disk directory at the folder's indexed path to the new remote
basename inside its existing parent and pushes `ModifiedLocalFile(new_rel)`
onto the ignore list before returning success — but performs no index update:
the index of the returned state equals the input index. -/
theorem C2_folder_rename_no_index_update (client : Client) (wm : String → Nat)
    (st : HState) (cid : Int) (rc : RemoteContent) (bp rel : String)
    (de : DiskEntry)
    (hget : client.get_remote_content cid = .ok rc)
    (hbuild : client.build_relative_path rc = .ok bp)
    (hfolder : rc.content_type = "folder")
    (hpath : get_path_from_content_id st.db cid = .ok rel)
    (hdisk : disk_get st.disk rel = some de) :
    modified_remote_file client wm st cid =
      (.ok (),
       { st with
         disk := disk_set (disk_remove st.disk rel)
           (rename_within_parent rel rc.filename) de,
         ignore_messages := st.ignore_messages ++
           [.ModifiedLocalFile (rename_within_parent rel rc.filename)] },
       [Event.diskRename rel (rename_within_parent rel rc.filename),
        Event.push (.ModifiedLocalFile (rename_within_parent rel rc.filename))]) := by
  simp [modified_remote_file, disk_rename, hget, hbuild, hfolder, hpath, hdisk]

/-- C2, witness: the amended statement at spec §8 scenario 2. -/
theorem C2_folder_rename_no_index_update_witness :
    modified_remote_file folderRenameClient (fun _ => 10) folderRenameState 7 =
      (.ok (),
       { folderRenameState with
         disk := disk_set (disk_remove folderRenameState.disk "docs")
           (rename_within_parent "docs" "documents") ⟨ContentType.folder, 10⟩,
         ignore_messages := folderRenameState.ignore_messages ++
           [.ModifiedLocalFile (rename_within_parent "docs" "documents")] },
       [Event.diskRename "docs" (rename_within_parent "docs" "documents"),
        Event.push (.ModifiedLocalFile (rename_within_parent "docs" "documents"))]) :=
  C2_folder_rename_no_index_update folderRenameClient (fun _ => 10)
    folderRenameState 7 ⟨7, none, "documents", "folder", 2⟩ "documents" "docs"
    ⟨ContentType.folder, 10⟩ (by decide) (by decide) rfl (by decide) (by decide)

/-- C6: the recursive parent materialization has no depth bound: on malformed
remote data whose parent chain is the cycle 1 → 2 → 1 (neither content
indexed), `new_remote_file` recurses forever — for every fuel the embedded
computation exhausts it (`none`) instead of aborting at a fixed bound. -/
theorem C6_cycle_never_terminates (fuel : Nat) :
    ∀ ign : List OperationalMessage,
      new_remote_file cyclicClient (fun _ => 0) fuel ⟨[], ign, []⟩ 1 = none ∧
      new_remote_file cyclicClient (fun _ => 0) fuel ⟨[], ign, []⟩ 2 = none := by
  induction fuel with
  | zero => intro ign; exact ⟨rfl, rfl⟩
  | succ n ih =>
    intro ign
    have hbuild : ∀ rc, cyclicClient.build_relative_path rc = .ok rc.filename :=
      fun _ => rfl
    constructor
    · have h2 := (ih (ign ++ [.NewLocalFile "a"])).2
      have hget : cyclicClient.get_remote_content 1 = .ok ⟨1, some 2, "a", "folder", 1⟩ := by
        decide
      simp [new_remote_file, hget, hbuild, content_id_is_known, h2]
    · have h1 := (ih (ign ++ [.NewLocalFile "b"])).1
      have hget : cyclicClient.get_remote_content 2 = .ok ⟨2, some 1, "b", "folder", 1⟩ := by
        decide
      simp [new_remote_file, hget, hbuild, content_id_is_known, h1]

/-- C6, witness: at fuel 9 the cyclic chain still exhausts the fuel. -/
theorem C6_cycle_never_terminates_witness :
    new_remote_file cyclicClient (fun _ => 0) 9 ⟨[], [], []⟩ 1 = none :=
  (C6_cycle_never_terminates 9 []).1

/-- C7: per walked non-root entry the startup reconciler emits `NewLocalFile`
iff the path is unindexed, `ModifiedLocalFile` iff it is indexed with a
different mtime, and nothing iff the indexed mtime matches the disk mtime;
and the index scan emits `DeletedLocalFile p` iff `p` is indexed and its disk
object no longer exists. -/
theorem C7_startup_reconciler (db : Db) (rel : String) (m : Nat)
    (hroot : rel ≠ "") :
    (sync_disk_file db rel m = [.NewLocalFile rel] ↔
      get_last_modified_timestamp db rel = none) ∧
    (sync_disk_file db rel m = [.ModifiedLocalFile rel] ↔
      ∃ ts, get_last_modified_timestamp db rel = some ts ∧ m ≠ ts) ∧
    (sync_disk_file db rel m = [] ↔ get_last_modified_timestamp db rel = some m) ∧
    (∀ (disk_has : String → Bool) (p : String),
      OperationalMessage.DeletedLocalFile p ∈ sync_from_db db disk_has ↔
        (p ∈ get_relative_paths db ∧ disk_has p = false)) := by
  refine ⟨?_, ?_, ?_, ?_⟩
  · unfold sync_disk_file
    cases hts : get_last_modified_timestamp db rel with
    | none => simp [hroot]
    | some ts => by_cases hm : m = ts <;> simp [hroot, hm]
  · unfold sync_disk_file
    cases hts : get_last_modified_timestamp db rel with
    | none => simp [hroot]
    | some ts => by_cases hm : m = ts <;> simp [hroot, hm]
  · unfold sync_disk_file
    cases hts : get_last_modified_timestamp db rel with
    | none => simp [hroot]
    | some ts => by_cases hm : m = ts <;> simp [hroot, hm, eq_comm]
  · intro disk_has p
    simp only [sync_from_db, List.mem_filterMap]
    constructor
    · rintro ⟨a, ha, heq⟩
      cases hd : disk_has a with
      | true => rw [hd] at heq; simp at heq
      | false =>
        rw [hd] at heq
        simp only [Bool.not_false, if_true, Option.some.injEq] at heq
        cases heq
        exact ⟨ha, hd⟩
    · rintro ⟨hp, hd⟩
      exact ⟨p, hp, by simp [hd]⟩

/-- C7, witness: the characterization at an indexed one-file database. -/
theorem C7_startup_reconciler_witness :
    (sync_disk_file [⟨"a.txt", 1, 1, 5⟩] "a.txt" 7 = [.NewLocalFile "a.txt"] ↔
      get_last_modified_timestamp [⟨"a.txt", 1, 1, 5⟩] "a.txt" = none) ∧
    (sync_disk_file [⟨"a.txt", 1, 1, 5⟩] "a.txt" 7 = [.ModifiedLocalFile "a.txt"] ↔
      ∃ ts, get_last_modified_timestamp [⟨"a.txt", 1, 1, 5⟩] "a.txt" = some ts ∧
        7 ≠ ts) ∧
    (sync_disk_file [⟨"a.txt", 1, 1, 5⟩] "a.txt" 7 = [] ↔
      get_last_modified_timestamp [⟨"a.txt", 1, 1, 5⟩] "a.txt" = some 7) ∧
    (∀ (disk_has : String → Bool) (p : String),
      OperationalMessage.DeletedLocalFile p ∈ sync_from_db [⟨"a.txt", 1, 1, 5⟩] disk_has ↔
        (p ∈ get_relative_paths [⟨"a.txt", 1, 1, 5⟩] ∧ disk_has p = false)) :=
  C7_startup_reconciler [⟨"a.txt", 1, 1, 5⟩] "a.txt" 7 (by decide)

/-- C8, counterexample: with an empty index and one walked file, the first
run of the startup reconciler emits `NewLocalFile "a.txt"`; with no change to
the disk or the index the second run emits the same message again, not
nothing. -/
theorem C8_counterexample :
    (local_sync_twice [] [("a.txt", 5)] (fun _ => true)).2 =
      [.NewLocalFile "a.txt"] ∧
    (local_sync_twice [] [("a.txt", 5)] (fun _ => true)).2 ≠ [] := by
  decide

/-- C8 (amended): the startup reconciler mutates neither the index nor the
disk, so with no interleaved changes the second run emits exactly the
messages of the first; in particular the second run emits nothing iff every
walked entry passing the basename filter has an empty per-entry diff and
every indexed path still exists on disk. -/
theorem C8_second_run_repeats (db : Db) (walk : List (String × Nat))
    (disk_has : String → Bool) :
    (local_sync_twice db walk disk_has).2 = (local_sync_twice db walk disk_has).1 ∧
    ((local_sync_twice db walk disk_has).2 = [] ↔
      ((∀ e ∈ walk, entry_ignored e.1 = false → sync_disk_file db e.1 e.2 = []) ∧
       ∀ p ∈ get_relative_paths db, disk_has p = true)) := by
  refine ⟨rfl, ?_⟩
  simp only [local_sync_twice, local_sync, sync_from_disk, sync_from_db,
    List.append_eq_nil, List.flatMap_eq_nil_iff, List.filterMap_eq_nil_iff,
    List.mem_filter]
  constructor
  · rintro ⟨hwalk, hdb⟩
    refine ⟨fun e he hig => hwalk e ⟨he, by simp [hig]⟩, fun p hp => ?_⟩
    have := hdb p hp
    cases hd : disk_has p with
    | true => rfl
    | false => rw [hd] at this; simp at this
  · rintro ⟨hwalk, hdb⟩
    refine ⟨fun e he => hwalk e he.1 (by simpa using he.2), fun p hp => ?_⟩
    simp [hdb p hp]

/-- C8, witness: the repetition law at the counterexample's inputs. -/
theorem C8_second_run_repeats_witness :
    (local_sync_twice [] [("a.txt", 5)] (fun _ => true)).2 =
      (local_sync_twice [] [("a.txt", 5)] (fun _ => true)).1 ∧
    ((local_sync_twice [] [("a.txt", 5)] (fun _ => true)).2 = [] ↔
      ((∀ e ∈ [("a.txt", 5)], entry_ignored e.1 = false →
        sync_disk_file [] e.1 e.2 = []) ∧
       ∀ p ∈ get_relative_paths [], (fun _ => true) p = true)) :=
  C8_second_run_repeats [] [("a.txt", 5)] (fun _ => true)

end Trsync
